import Mathlib

/-!
Verification development for the purira client chat controller
(src/routes/+page.svelte and src/lib/api.ts).

The embedding models the client's pure helpers directly and the async
orchestration functions as explicit state transformers.  Remote calls and
asset-existence probes are parameters:

* an asset environment `ex : String → String → Bool` answers whether the
  HEAD probe for `/avatar/{mood}.{extension}` succeeds (a thrown fetch is
  caught by the source and counts as "does not exist", so a Bool suffices);
* each remote API call's outcome is passed in as an `Except`/outcome value.

JavaScript truthiness on optional strings (`if (msg.mood)`,
`msg.image_path && ...`) is modelled by `optTruthy`: an absent value and
the empty string are falsy, every other string is truthy.
-/

/-- Server message record, from `api.ts` (`export interface Message`).
`time` is a numeric timestamp. -/
structure ApiMessage where
  role : String
  content_raw : String
  content_split : List String
  mood : Option String := none
  time : Nat := 0
  image_path : Option String := none
  message_type : String := ""
deriving Repr, DecidableEq

/-- Frontend display message, from the `Message` interface in
`+page.svelte`. -/
structure Message where
  role : String
  content : String
  mood : Option String := none
  image_path : Option String := none
deriving Repr, DecidableEq

/-- Pending attachment: the source keeps `attachedImage` as the JSON string
`JSON.stringify({filename, data})`; restoring reassigns the very same
string, so the structured pair is an exact model. -/
structure Attachment where
  filename : String
  data : String
deriving Repr, DecidableEq

/-- Response of the summarization endpoints (`SummarizeResponse` in
`api.ts`). -/
structure SummarizeResponse where
  status : String
  message : String
deriving Repr, DecidableEq

/-- JavaScript truthiness of an optional string: `undefined`/`null` and
`""` are falsy, any other string truthy. -/
def optTruthy : Option String → Bool
  | none => false
  | some s => !s.isEmpty

/-- JavaScript `String.prototype.trim`: strip leading and trailing
whitespace.  Written over the character list so that it is directly
executable by the kernel. -/
def jsTrim (s : String) : String :=
  ⟨((s.data.dropWhile Char.isWhitespace).reverse.dropWhile
      Char.isWhitespace).reverse⟩

/-- `flattenMessages` from `+page.svelte`: converts API messages to
frontend format.  For an image message with at least two content segments
only segment index 1 is shown (with the image attached); otherwise every
content segment becomes its own display message. -/
def flattenMessages (apiMessages : List ApiMessage) : List Message :=
  apiMessages.flatMap (fun msg =>
    if optTruthy msg.image_path && decide (2 ≤ msg.content_split.length) then
      [{ role := msg.role
         content := msg.content_split.getD 1 ""
         mood := msg.mood
         image_path := msg.image_path }]
    else
      msg.content_split.map (fun content =>
        { role := msg.role
          content := content
          mood := msg.mood
          image_path := msg.image_path }))

/-- The ordered image-extension probe list of `get_extension`. -/
def imageFormats : List String := ["png", "jpg", "jpeg", "gif", "webp"]

/-- `get_extension` from `+page.svelte`: probe `{mood}.mp4` first, then the
image formats in order; if nothing exists fall back (once) to mood
"normal", and if even "normal" has no asset return the hardcoded default
`("normal", "png")`.  `ex mood extension` answers the existence probe. -/
def get_extension (ex : String → String → Bool) (mood : String) :
    String × String :=
  if ex mood "mp4" then (mood, "mp4")
  else
    match imageFormats.find? (fun fmt => ex mood fmt) with
    | some fmt => (mood, fmt)
    | none =>
      if h : mood = "normal" then ("normal", "png")
      else get_extension ex "normal"
termination_by (if mood = "normal" then 1 else 2)
decreasing_by simp [h]

/-- One probe round of the mood resolver as the spec words it: `mp4`
first, then the image formats in order; `none` when no asset of any kind
exists for this mood.  (Spec-side definition, used to state that the
source resolver is a depth-bounded two-round fallback chain.) -/
def probeRound (ex : String → String → Bool) (mood : String) :
    Option (String × String) :=
  if ex mood "mp4" then some (mood, "mp4")
  else (imageFormats.find? (fun fmt => ex mood fmt)).map (fun fmt => (mood, fmt))

/-- The spec's description of mood resolution: at most two rounds — the
requested mood, then "normal" — with hardcoded default `("normal", "png")`.
(Spec-side definition for comparison with `get_extension`.) -/
def resolveSpec (ex : String → String → Bool) (mood : String) :
    String × String :=
  match probeRound ex mood with
  | some r => r
  | none =>
    match probeRound ex "normal" with
    | some r => r
    | none => ("normal", "png")

/-- The component state of `+page.svelte` that the modelled operations
read or write.  `puriraWriting` is the "sending" busy flag; `polling`
records whether the summarization poll interval is active.  Purely visual
state (scroll position, alerts, textarea height) is not modelled. -/
structure ClientState where
  message : String := ""
  messages : List Message := []
  puriraWriting : Bool := false
  summarizing : Bool := false
  summarizeError : String := ""
  currentMood : String := "normal"
  currentExtension : String := "png"
  attachedImage : Option Attachment := none
  menuOpen : Bool := false
  polling : Bool := false
deriving Repr, DecidableEq

/-- `updateMood` from `+page.svelte`: resolve the mood and store the
result in `currentMood` / `currentExtension`. -/
def updateMood (ex : String → String → Bool) (st : ClientState)
    (mood : String) : ClientState :=
  let result := get_extension ex mood
  { st with currentMood := result.1, currentExtension := result.2 }

/-- `displayResponseMessages` from `+page.svelte`, as a state transformer:
append each response message in order; when a message's mood is truthy,
update the presentation mood via `updateMood` before moving on.  The
inter-message delay only suspends and never changes state, so it does not
appear here; `revealTrace` below models the full event order including
delays. -/
def displayResponseMessages (ex : String → String → Bool)
    (st : ClientState) (responseMessages : List Message) (delay : Nat) :
    ClientState :=
  match responseMessages with
  | [] => st
  | msg :: rest =>
    let s1 := { st with messages := st.messages ++ [msg] }
    let s2 := if optTruthy msg.mood then updateMood ex s1 (msg.mood.getD "")
              else s1
    displayResponseMessages ex s2 rest delay

/-- Events observable during one `displayResponseMessages` run. -/
inductive RevealEvent where
  | append (msg : Message)
  | moodUpdate (mood : String)
  | delay (ms : Nat)
deriving Repr, DecidableEq

/-- The event trace of `displayResponseMessages`: per message, the append,
then (for a truthy mood) the mood update, then — except after the last
message — one delay suspension.  The source decides "not last" with
`responseMessages.indexOf(msg) < responseMessages.length - 1`; `indexOf`
compares object references and `flattenMessages` builds a fresh object per
element, so that test is exactly "the loop position is not the last",
which is what this positional recursion encodes. -/
def revealTrace (responseMessages : List Message) (delayMs : Nat) :
    List RevealEvent :=
  match responseMessages with
  | [] => []
  | msg :: rest =>
    RevealEvent.append msg ::
      ((if optTruthy msg.mood
        then [RevealEvent.moodUpdate (msg.mood.getD "")] else []) ++
       (if rest.isEmpty then []
        else RevealEvent.delay delayMs :: revealTrace rest delayMs))

/-- The messages appended by a reveal trace, in trace order. -/
def appendsOf (trace : List RevealEvent) : List Message :=
  trace.filterMap (fun e =>
    match e with
    | RevealEvent.append m => some m
    | _ => none)

/-- Whether a reveal event is a delay suspension. -/
def isDelay : RevealEvent → Bool
  | RevealEvent.delay _ => true
  | _ => false

/-- Outcome of the try-block of `send`: either the remote unified-message
call returns response records, or something in the try-block throws.
`extraAppended` are the messages the try-block appended to the timeline
before the throw — `[]` when the remote call itself throws, a prefix of
the flattened response if the reveal were to throw mid-way. -/
inductive SendOutcome where
  | ok (resp : List ApiMessage)
  | err (e : String) (extraAppended : List Message)

/-- `send` from `+page.svelte`.  Guard: trimmed text non-empty and neither
busy flag set.  Then: snapshot the timeline length, consume any pending
attachment, optimistically append the user message, set the busy flag,
and run the remote call; on success reveal the flattened response, on any
throw roll the timeline back to the snapshot and restore the attachment;
in both cases finally clear the busy flag.  (The user-facing alert text of
the catch-block is not part of the modelled state.) -/
def send (ex : String → String → Bool) (st : ClientState)
    (outcome : SendOutcome) : ClientState :=
  let text := jsTrim st.message
  if text.isEmpty || st.puriraWriting || st.summarizing then st
  else
    let messagesBeforeSend := st.messages.length
    let hadAttachment := st.attachedImage.isSome
    let attachmentData := st.attachedImage
    let imageFilename : Option String :=
      st.attachedImage.map Attachment.filename
    let st1 : ClientState :=
      { st with
        messages := st.messages ++
          [{ role := "user", content := text, mood := none,
             image_path := imageFilename }]
        message := ""
        attachedImage := none
        puriraWriting := true }
    match outcome with
    | SendOutcome.ok resp =>
      let st2 := displayResponseMessages ex st1 (flattenMessages resp) 1000
      { st2 with puriraWriting := false }
    | SendOutcome.err _ extra =>
      let st2 : ClientState := { st1 with messages := st1.messages ++ extra }
      let st3 : ClientState :=
        { st2 with
          messages := st2.messages.take messagesBeforeSend
          attachedImage :=
            if hadAttachment then attachmentData else st2.attachedImage }
      { st3 with puriraWriting := false }

/-- Remote requests that the proactive-check path can issue. -/
inductive RemoteCall where
  | shouldSendProactive
  | proactiveMessage
deriving Repr, DecidableEq

/-- `sendProactiveMessage` from `+page.svelte` (manual, menu-triggered):
toggle the menu; if busy, alert and return; otherwise set the busy flag,
run the proactive-message call, reveal the flattened response on success
(alert on error), and finally clear the busy flag. -/
def sendProactiveMessage (ex : String → String → Bool) (st : ClientState)
    (r : Except String (List ApiMessage)) : ClientState :=
  let st0 := { st with menuOpen := !st.menuOpen }
  if st0.puriraWriting || st0.summarizing then st0
  else
    let st1 := { st0 with puriraWriting := true }
    match r with
    | Except.ok apiMessages =>
      let responseMessages := flattenMessages apiMessages
      let st2 := displayResponseMessages ex st1 responseMessages 1000
      { st2 with puriraWriting := false }
    | Except.error _ =>
      { st1 with puriraWriting := false }

/-- `sendProactiveMessageAuto` from `+page.svelte` (timer-triggered; no
menu toggle, no alerts).  Also returns the remote calls it issued: none
when the busy guard rejects, the proactive-message call otherwise
(whether it succeeds or throws). -/
def sendProactiveMessageAuto (ex : String → String → Bool)
    (st : ClientState) (r : Except String (List ApiMessage)) :
    ClientState × List RemoteCall :=
  if st.puriraWriting || st.summarizing then (st, [])
  else
    let st1 := { st with puriraWriting := true }
    match r with
    | Except.ok apiMessages =>
      let responseMessages := flattenMessages apiMessages
      let st2 := displayResponseMessages ex st1 responseMessages 1000
      ({ st2 with puriraWriting := false }, [RemoteCall.proactiveMessage])
    | Except.error _ =>
      ({ st1 with puriraWriting := false }, [RemoteCall.proactiveMessage])

/-- One tick of the 5-minute proactive-check interval set up in `onMount`:
if a busy flag is set, return before any request; otherwise query
should-send (errors logged and swallowed) and, when it answers true, run
`sendProactiveMessageAuto`.  Returns the new state and the remote calls
issued during the tick. -/
def proactiveTick (ex : String → String → Bool) (st : ClientState)
    (shouldR : Except String Bool)
    (msgR : Except String (List ApiMessage)) :
    ClientState × List RemoteCall :=
  if st.puriraWriting || st.summarizing then (st, [])
  else
    match shouldR with
    | Except.error _ => (st, [RemoteCall.shouldSendProactive])
    | Except.ok false => (st, [RemoteCall.shouldSendProactive])
    | Except.ok true =>
      let result := sendProactiveMessageAuto ex st msgR
      (result.1, RemoteCall.shouldSendProactive :: result.2)

/-- One tick of the 2-second summarization poll interval inside
`startSummarization`: on status "idle" stop polling and clear
`summarizing`; on a non-idle status do nothing; on a failed status query
stop polling, clear `summarizing` and record the error message shown to
the user in `summarizeError`. -/
def pollTick (st : ClientState)
    (statusR : Except String SummarizeResponse) : ClientState :=
  match statusR with
  | Except.ok status =>
    if status.status = "idle"
    then { st with polling := false, summarizing := false }
    else st
  | Except.error err =>
    { st with
      polling := false
      summarizing := false
      summarizeError := "Failed to check status: " ++ err }

/-- `triggerWebSearch` from `+page.svelte`: toggle the menu; if busy,
return; otherwise set the busy flag, run the web-search background
action, and finally clear the flag.  The response messages are
intentionally never displayed, and no optimistic state is created. -/
def triggerWebSearch (st : ClientState)
    (r : Except String (List ApiMessage)) : ClientState :=
  let st0 := { st with menuOpen := !st.menuOpen }
  if st0.puriraWriting || st0.summarizing then st0
  else
    let st1 := { st0 with puriraWriting := true }
    match r with
    | Except.ok _ => { st1 with puriraWriting := false }
    | Except.error _ => { st1 with puriraWriting := false }

/-- `triggerReminisce` from `+page.svelte`: same shape as
`triggerWebSearch`; on error the source picks an alert text by substring
match ("Not enough messages" for the insufficient-history failure), which
does not touch the modelled state. -/
def triggerReminisce (st : ClientState)
    (r : Except String (List ApiMessage)) : ClientState :=
  let st0 := { st with menuOpen := !st.menuOpen }
  if st0.puriraWriting || st0.summarizing then st0
  else
    let st1 := { st0 with puriraWriting := true }
    match r with
    | Except.ok _ => { st1 with puriraWriting := false }
    | Except.error _ => { st1 with puriraWriting := false }

/-! ### Helper lemmas -/

theorem displayResponseMessages_messages (ex : String → String → Bool)
    (msgs : List Message) : ∀ (st : ClientState) (d : Nat),
    (displayResponseMessages ex st msgs d).messages = st.messages ++ msgs := by
  induction msgs with
  | nil => intro st d; simp [displayResponseMessages]
  | cons m rest ih =>
    intro st d
    simp only [displayResponseMessages]
    by_cases hm : optTruthy m.mood
    · simp [hm, ih, updateMood]
    · simp [hm, ih]

/-! ### Claim theorems -/

/-- C3: flattening a server message with a truthy image reference and at
least two content segments emits exactly the one DisplayMessage whose
content is segment index 1 (same role, mood, image reference); otherwise
it emits one DisplayMessage per content segment, in order, each carrying
the source message's role, mood and image reference.  "Carries an image
reference" is the source's JavaScript truthiness test on `image_path`. -/
theorem flatten_image_second_segment (msg : ApiMessage) :
    (optTruthy msg.image_path = true → 2 ≤ msg.content_split.length →
      flattenMessages [msg] =
        [{ role := msg.role, content := msg.content_split.getD 1 "",
           mood := msg.mood, image_path := msg.image_path }])
    ∧ (optTruthy msg.image_path = false ∨ msg.content_split.length < 2 →
      flattenMessages [msg] =
        msg.content_split.map (fun c =>
          { role := msg.role, content := c, mood := msg.mood,
            image_path := msg.image_path })
      ∧ (flattenMessages [msg]).length = msg.content_split.length) := by
  constructor
  · intro h1 h2
    simp [flattenMessages, h1, h2]
  · intro h
    cases h with
    | inl h1 => simp [flattenMessages, h1]
    | inr h2 =>
      have : ¬ 2 ≤ msg.content_split.length := Nat.not_le.mpr h2
      simp [flattenMessages, this]

/-- Witness for C3, both branches at concrete messages. -/
theorem flatten_image_second_segment_witness :
    flattenMessages
        [{ role := "assistant", content_raw := "d t",
           content_split := ["a picture", "look"], mood := some "happy",
           image_path := some "img.png" }] =
      [{ role := "assistant", content := "look", mood := some "happy",
         image_path := some "img.png" }]
    ∧ flattenMessages
        [{ role := "assistant", content_raw := "a b c",
           content_split := ["a", "b", "c"], mood := some "calm" }] =
      [{ role := "assistant", content := "a", mood := some "calm" },
       { role := "assistant", content := "b", mood := some "calm" },
       { role := "assistant", content := "c", mood := some "calm" }] :=
  ⟨(flatten_image_second_segment _).1 (by decide) (by decide),
   ((flatten_image_second_segment _).2 (Or.inl (by decide))).1⟩

/-- C10: a server message whose content-segment list is empty flattens to
nothing — even with an image reference — so it contributes no entry when
a batch containing it is flattened. -/
theorem flatten_empty_split_contributes_nothing
    (pre post : List ApiMessage) (msg : ApiMessage)
    (h : msg.content_split = []) :
    flattenMessages [msg] = []
    ∧ flattenMessages (pre ++ msg :: post) = flattenMessages (pre ++ post) := by
  constructor
  · simp [flattenMessages, h]
  · simp [flattenMessages, h]

/-- Witness for C10 at a message that carries an image reference. -/
theorem flatten_empty_split_contributes_nothing_witness :
    flattenMessages
        [{ role := "assistant", content_raw := "", content_split := [],
           image_path := some "img.png" }] = []
    ∧ flattenMessages
        ([{ role := "user", content_raw := "hi", content_split := ["hi"] }] ++
          { role := "assistant", content_raw := "", content_split := [],
            image_path := some "img.png" } ::
          [{ role := "assistant", content_raw := "yo", content_split := ["yo"] }]) =
      flattenMessages
        ([{ role := "user", content_raw := "hi", content_split := ["hi"] }] ++
         [{ role := "assistant", content_raw := "yo", content_split := ["yo"] }]) :=
  flatten_empty_split_contributes_nothing _ _ _ rfl

theorem probeRound_snd_mem (ex : String → String → Bool) (mood : String)
    (r : String × String) (h : probeRound ex mood = some r) :
    r.2 ∈ "mp4" :: imageFormats := by
  unfold probeRound at h
  by_cases hm : ex mood "mp4"
  · simp [hm] at h
    simp [← h]
  · simp [hm] at h
    obtain ⟨fmt, hf, hr⟩ := h
    have := List.mem_of_find?_eq_some hf
    simp [← hr, this]

theorem probeRound_eq_none (ex : String → String → Bool) (mood : String)
    (h : ∀ e ∈ "mp4" :: imageFormats, ex mood e = false) :
    probeRound ex mood = none := by
  unfold probeRound
  have hm : ex mood "mp4" = false := h "mp4" (by simp)
  have hf : imageFormats.find? (fun fmt => ex mood fmt) = none := by
    rw [List.find?_eq_none]
    intro x hx
    simp [h x (List.mem_cons_of_mem _ hx)]
  simp [hm, hf]

theorem get_extension_eq_resolveSpec (ex : String → String → Bool)
    (mood : String) : get_extension ex mood = resolveSpec ex mood := by
  rw [get_extension]
  unfold resolveSpec probeRound
  by_cases hm : ex mood "mp4"
  · simp [hm]
  · simp only [hm, Bool.false_eq_true, if_false, Option.map]
    cases hf : imageFormats.find? (fun fmt => ex mood fmt) with
    | some fmt => simp
    | none =>
      simp only
      by_cases hn : mood = "normal"
      · subst hn
        simp [hm, hf]
      · rw [dif_neg hn, get_extension]
        by_cases hm2 : ex "normal" "mp4"
        · simp [hm2]
        · simp only [hm2, Bool.false_eq_true, if_false]
          cases hf2 : imageFormats.find? (fun fmt => ex "normal" fmt) with
          | some fmt => simp
          | none => simp

/-- C4: for every asset environment, `get_extension` equals the spec's
two-round fallback chain (requested mood then "normal", each round
probing mp4 first and then png, jpg, jpeg, gif, webp in order), so it
terminates after at most two rounds; its extension always lies in the
fixed set; and when no asset of any kind exists for the requested mood or
for "normal" it returns exactly `("normal", "png")`. -/
theorem mood_resolution_two_round_fallback (ex : String → String → Bool)
    (mood : String) :
    get_extension ex mood = resolveSpec ex mood
    ∧ (get_extension ex mood).2 ∈ "mp4" :: imageFormats
    ∧ ((∀ e ∈ "mp4" :: imageFormats, ex mood e = false) →
       (∀ e ∈ "mp4" :: imageFormats, ex "normal" e = false) →
       get_extension ex mood = ("normal", "png")) := by
  refine ⟨get_extension_eq_resolveSpec ex mood, ?_, ?_⟩
  · rw [get_extension_eq_resolveSpec]
    unfold resolveSpec
    cases h1 : probeRound ex mood with
    | some r => exact probeRound_snd_mem ex mood r h1
    | none =>
      cases h2 : probeRound ex "normal" with
      | some r => exact probeRound_snd_mem ex "normal" r h2
      | none => simp [imageFormats]
  · intro hmood hnormal
    rw [get_extension_eq_resolveSpec]
    unfold resolveSpec
    rw [probeRound_eq_none ex mood hmood,
      probeRound_eq_none ex "normal" hnormal]

/-- Witness for C4: an environment with no assets at all resolves an
unknown mood to the hardcoded default. -/
theorem mood_resolution_two_round_fallback_witness :
    get_extension (fun _ _ => false) "mysterious" = ("normal", "png") :=
  (mood_resolution_two_round_fallback (fun _ _ => false) "mysterious").2.2
    (by decide) (by decide)

/-- C1: a send whose guard passes and whose remote call succeeds appends
exactly `1 + |flatten(response)|` messages: first the optimistic user
message (content = trimmed text, image_path = the pending attachment's
filename when one was present), then the flattened response messages in
flattening order. -/
theorem send_success_appends_user_then_flattened
    (ex : String → String → Bool) (st : ClientState)
    (resp : List ApiMessage) (h1 : (jsTrim st.message).isEmpty = false)
    (h2 : st.puriraWriting = false) (h3 : st.summarizing = false) :
    (send ex st (SendOutcome.ok resp)).messages
      = st.messages ++
        ({ role := "user", content := jsTrim st.message, mood := none,
           image_path := st.attachedImage.map Attachment.filename } ::
          flattenMessages resp)
    ∧ (send ex st (SendOutcome.ok resp)).messages.length
      = st.messages.length + (1 + (flattenMessages resp).length) := by
  have hmain :
      (send ex st (SendOutcome.ok resp)).messages
        = st.messages ++
          ({ role := "user", content := jsTrim st.message, mood := none,
             image_path := st.attachedImage.map Attachment.filename } ::
            flattenMessages resp) := by
    unfold send
    simp [h1, h2, h3, displayResponseMessages_messages]
  refine ⟨hmain, ?_⟩
  rw [hmain]
  simp [Nat.add_comm]

/-- Witness for C1: sending " hi " with an attachment and a two-bubble
response appends the user echo and both response messages. -/
theorem send_success_appends_user_then_flattened_witness :
    (send (fun _ _ => false)
        { message := " hi ", attachedImage := some ⟨"f.png", "QUJD"⟩ }
        (SendOutcome.ok
          [{ role := "assistant", content_raw := "", content_split := ["yo", "sup"],
             mood := some "happy" }])).messages
      = [{ role := "user", content := "hi", mood := none,
           image_path := some "f.png" },
         { role := "assistant", content := "yo", mood := some "happy" },
         { role := "assistant", content := "sup", mood := some "happy" }]
    ∧ (send (fun _ _ => false)
        { message := " hi ", attachedImage := some ⟨"f.png", "QUJD"⟩ }
        (SendOutcome.ok
          [{ role := "assistant", content_raw := "", content_split := ["yo", "sup"],
             mood := some "happy" }])).messages.length = 0 + (1 + 2) :=
  have h := send_success_appends_user_then_flattened (fun _ _ => false)
    { message := " hi ", attachedImage := some ⟨"f.png", "QUJD"⟩ }
    [{ role := "assistant", content_raw := "", content_split := ["yo", "sup"],
       mood := some "happy" }] (by decide) rfl rfl
  ⟨h.1.trans (by decide), h.2.trans (by decide)⟩

/-- C2: a send that performed the optimistic append and then fails rolls
the timeline back to its pre-send length (in fact to the exact pre-send
list), and the pending attachment — if one existed — is restored
byte-identically (`attachedImage` is exactly the pre-send value). -/
theorem send_failure_exact_rollback (ex : String → String → Bool)
    (st : ClientState) (e : String) (extra : List Message)
    (h1 : (jsTrim st.message).isEmpty = false) (h2 : st.puriraWriting = false)
    (h3 : st.summarizing = false) :
    (send ex st (SendOutcome.err e extra)).messages.length
      = st.messages.length
    ∧ (send ex st (SendOutcome.err e extra)).messages = st.messages
    ∧ (send ex st (SendOutcome.err e extra)).attachedImage
      = st.attachedImage := by
  have hmsgs : (send ex st (SendOutcome.err e extra)).messages
      = st.messages := by
    unfold send
    simp only [h1, h2, h3, Bool.or_self, Bool.or_false, Bool.false_eq_true,
      if_false]
    rw [List.append_assoc, List.take_left]
  have hatt : (send ex st (SendOutcome.err e extra)).attachedImage
      = st.attachedImage := by
    unfold send
    simp only [h1, h2, h3, Bool.or_self, Bool.or_false, Bool.false_eq_true,
      if_false]
    cases st.attachedImage <;> simp
  exact ⟨by rw [hmsgs], hmsgs, hatt⟩

/-- Witness for C2: a failed send with an attachment leaves the timeline
and the attachment exactly as they were. -/
theorem send_failure_exact_rollback_witness :
    (send (fun _ _ => false)
        { message := "hello",
          messages := [{ role := "assistant", content := "old" }],
          attachedImage := some ⟨"f.png", "QUJD"⟩ }
        (SendOutcome.err "boom" [])).messages.length = 1
    ∧ (send (fun _ _ => false)
        { message := "hello",
          messages := [{ role := "assistant", content := "old" }],
          attachedImage := some ⟨"f.png", "QUJD"⟩ }
        (SendOutcome.err "boom" [])).messages
      = [{ role := "assistant", content := "old" }]
    ∧ (send (fun _ _ => false)
        { message := "hello",
          messages := [{ role := "assistant", content := "old" }],
          attachedImage := some ⟨"f.png", "QUJD"⟩ }
        (SendOutcome.err "boom" [])).attachedImage
      = some ⟨"f.png", "QUJD"⟩ :=
  have h := send_failure_exact_rollback (fun _ _ => false)
    { message := "hello",
      messages := [{ role := "assistant", content := "old" }],
      attachedImage := some ⟨"f.png", "QUJD"⟩ } "boom" []
    (by decide) rfl rfl
  ⟨h.1.trans (by decide), h.2.1.trans (by decide), h.2.2.trans (by decide)⟩

/-- C5: when an operation starts with the sending flag clear (the state
the spec's advisory discipline guarantees at entry), `send` and both
proactive-send variants leave `puriraWriting = false` on completion, on
the success path, on every error path — including a throw at the remote
call — and on the guard-rejected path. -/
theorem sending_flag_false_after_completion (ex : String → String → Bool)
    (st : ClientState) (h : st.puriraWriting = false) :
    (∀ o, (send ex st o).puriraWriting = false)
    ∧ (∀ r, (sendProactiveMessage ex st r).puriraWriting = false)
    ∧ (∀ r, (sendProactiveMessageAuto ex st r).1.puriraWriting = false) := by
  refine ⟨fun o => ?_, fun r => ?_, fun r => ?_⟩
  · by_cases ht : (jsTrim st.message).isEmpty <;> by_cases hb : st.summarizing <;>
      cases o <;> simp [send, h, ht, hb]
  · by_cases hb : st.summarizing <;>
      cases r <;> simp [sendProactiveMessage, h, hb]
  · by_cases hb : st.summarizing <;>
      cases r <;> simp [sendProactiveMessageAuto, h, hb]

/-- Witness for C5: the flag is clear after a send whose remote call
throws before producing a response. -/
theorem sending_flag_false_after_completion_witness :
    (send (fun _ _ => false) { message := "hello" }
      (SendOutcome.err "network down" [])).puriraWriting = false :=
  (sending_flag_false_after_completion (fun _ _ => false)
    { message := "hello" } rfl).1 (SendOutcome.err "network down" [])

/-- C6: a proactive-check tick that observes `puriraWriting` (sending) or
`summarizing` set issues no remote request at all — neither the
should-send query nor the proactive-message call — and, conversely, any
tick that did issue a request observed both flags false. -/
theorem proactive_tick_skips_when_busy (ex : String → String → Bool)
    (st : ClientState) (shouldR : Except String Bool)
    (msgR : Except String (List ApiMessage)) :
    ((st.puriraWriting || st.summarizing) = true →
      (proactiveTick ex st shouldR msgR).2 = [])
    ∧ ((proactiveTick ex st shouldR msgR).2 ≠ [] →
      st.puriraWriting = false ∧ st.summarizing = false) := by
  constructor
  · intro hbusy
    simp [proactiveTick, hbusy]
  · intro hcalls
    by_cases hp : st.puriraWriting
    · exact absurd (by simp [proactiveTick, hp]) hcalls
    · by_cases hs : st.summarizing
      · exact absurd (by simp [proactiveTick, hp, hs]) hcalls
      · exact ⟨by simp [hp], by simp [hs]⟩

/-- Witness for C6: a tick during summarization makes no remote call even
when the environment would answer the should-send query with true; a tick
with both flags clear does issue requests. -/
theorem proactive_tick_skips_when_busy_witness :
    (proactiveTick (fun _ _ => false) { summarizing := true }
      (Except.ok true) (Except.ok [])).2 = []
    ∧ { summarizing := false : ClientState }.puriraWriting = false :=
  ⟨(proactive_tick_skips_when_busy (fun _ _ => false) { summarizing := true }
      (Except.ok true) (Except.ok [])).1 rfl,
   ((proactive_tick_skips_when_busy (fun _ _ => false) { summarizing := false }
      (Except.ok true) (Except.ok [])).2 (by decide)).1⟩

/-- C9: the web-search and reminisce background actions never change the
timeline, whether the remote call succeeds or fails (including the
reminisce insufficient-history failure): no response message is appended
and no rollback happens, since no optimistic state is created. -/
theorem background_actions_leave_timeline_unchanged (st : ClientState)
    (r : Except String (List ApiMessage)) :
    (triggerWebSearch st r).messages = st.messages
    ∧ (triggerReminisce st r).messages = st.messages := by
  constructor
  · by_cases hb : (st.puriraWriting || st.summarizing) = true <;>
      cases r <;> simp [triggerWebSearch, hb]
  · by_cases hb : (st.puriraWriting || st.summarizing) = true <;>
      cases r <;> simp [triggerReminisce, hb]

theorem poll_error_message_ne_empty (t : String) :
    ("Failed to check status: " ++ t) ≠ "" := by
  cases t with
  | mk b =>
    intro hc
    have hd : "Failed to check status: ".data ++ b = [] :=
      congrArg String.data hc
    exact absurd (List.append_eq_nil.mp hd).1 (by decide)

/-- C8: during an active summarization poll, a tick whose status query
answers "idle" stops polling and clears `summarizing` without touching
the user-visible error; a tick whose query answers a non-idle status
keeps polling with `summarizing` still set; a tick whose query fails
stops polling, clears `summarizing`, and surfaces the failure in the
user-visible `summarizeError`. -/
theorem poll_tick_stop_and_error_surfacing (st : ClientState)
    (r : Except String SummarizeResponse) (hs : st.summarizing = true)
    (hp : st.polling = true) :
    (∀ s, r = Except.ok s → s.status = "idle" →
      (pollTick st r).polling = false ∧ (pollTick st r).summarizing = false
      ∧ (pollTick st r).summarizeError = st.summarizeError)
    ∧ (∀ s, r = Except.ok s → s.status ≠ "idle" →
      (pollTick st r).polling = true ∧ (pollTick st r).summarizing = true)
    ∧ (∀ e, r = Except.error e →
      (pollTick st r).polling = false ∧ (pollTick st r).summarizing = false
      ∧ (pollTick st r).summarizeError = "Failed to check status: " ++ e
      ∧ (pollTick st r).summarizeError ≠ "") := by
  refine ⟨fun s hr hidle => ?_, fun s hr hnidle => ?_, fun e hr => ?_⟩
  · subst hr
    simp [pollTick, hidle]
  · subst hr
    simp [pollTick, hnidle, hs, hp]
  · subst hr
    simpa [pollTick] using poll_error_message_ne_empty e

/-- Witness for C8: an idle answer stops the poll silently; a failed
status query stops it and surfaces the error text. -/
theorem poll_tick_stop_and_error_surfacing_witness :
    ((pollTick { summarizing := true, polling := true }
        (Except.ok { status := "idle", message := "" })).polling = false
      ∧ (pollTick { summarizing := true, polling := true }
          (Except.ok { status := "idle", message := "" })).summarizing = false
      ∧ (pollTick { summarizing := true, polling := true }
          (Except.ok { status := "idle", message := "" })).summarizeError
        = ({ summarizing := true, polling := true } : ClientState).summarizeError)
    ∧ ((pollTick { summarizing := true, polling := true }
        (Except.error "net down")).polling = false
      ∧ (pollTick { summarizing := true, polling := true }
          (Except.error "net down")).summarizing = false
      ∧ (pollTick { summarizing := true, polling := true }
          (Except.error "net down")).summarizeError
        = "Failed to check status: " ++ "net down"
      ∧ (pollTick { summarizing := true, polling := true }
          (Except.error "net down")).summarizeError ≠ "") :=
  ⟨(poll_tick_stop_and_error_surfacing
      { summarizing := true, polling := true }
      (Except.ok { status := "idle", message := "" }) rfl rfl).1
      { status := "idle", message := "" } rfl rfl,
   (poll_tick_stop_and_error_surfacing
      { summarizing := true, polling := true }
      (Except.error "net down") rfl rfl).2.2 "net down" rfl⟩

theorem revealTrace_cons_cons (m r : Message) (rs : List Message) (d : Nat) :
    revealTrace (m :: r :: rs) d
      = (RevealEvent.append m ::
          (if optTruthy m.mood
           then [RevealEvent.moodUpdate (m.mood.getD "")] else []))
        ++ RevealEvent.delay d :: revealTrace (r :: rs) d := by
  rw [List.cons_append]
  rfl

theorem appendsOf_revealTrace (d : Nat) : ∀ msgs : List Message,
    appendsOf (revealTrace msgs d) = msgs := by
  intro msgs
  induction msgs with
  | nil => rfl
  | cons m rest ih =>
    cases rest with
    | nil =>
      by_cases hm : optTruthy m.mood <;>
        simp [revealTrace, appendsOf, hm]
    | cons r rs =>
      rw [revealTrace_cons_cons]
      by_cases hm : optTruthy m.mood <;>
        simp [appendsOf, List.filterMap_append, hm] <;>
        simpa [appendsOf] using ih

theorem countP_isDelay_revealTrace (d : Nat) : ∀ msgs : List Message,
    (revealTrace msgs d).countP isDelay = msgs.length - 1 := by
  intro msgs
  induction msgs with
  | nil => rfl
  | cons m rest ih =>
    cases rest with
    | nil =>
      by_cases hm : optTruthy m.mood <;>
        simp [revealTrace, hm, isDelay]
    | cons r rs =>
      rw [revealTrace_cons_cons]
      by_cases hm : optTruthy m.mood <;>
        simp [List.countP_append, List.countP_cons, isDelay, hm] <;>
        · rw [ih]
          simp
  
theorem getLast_revealTrace_not_delay (d : Nat) : ∀ (msgs : List Message)
    (e : RevealEvent),
    (revealTrace msgs d).getLast? = some e → isDelay e = false := by
  intro msgs
  induction msgs with
  | nil =>
    intro e he
    simp [revealTrace] at he
  | cons m rest ih =>
    cases rest with
    | nil =>
      intro e he
      by_cases hm : optTruthy m.mood
      · simp [revealTrace, hm] at he
        simp [← he, isDelay]
      · simp [revealTrace, hm] at he
        simp [← he, isDelay]
    | cons r rs =>
      intro e he
      rw [revealTrace_cons_cons, List.getLast?_append_cons] at he
      have hT : revealTrace (r :: rs) d
          = RevealEvent.append r ::
            ((if optTruthy r.mood
              then [RevealEvent.moodUpdate (r.mood.getD "")] else []) ++
             (if rs.isEmpty then []
              else RevealEvent.delay d :: revealTrace rs d)) := rfl
      rw [hT, List.getLast?_cons_cons, ← hT] at he
      exact ih e he

theorem moodUpdate_follows_append (d : Nat) : ∀ (msgs : List Message)
    (m : Message), m ∈ msgs → optTruthy m.mood = true →
    ∃ t1 t2, revealTrace msgs d
      = t1 ++ RevealEvent.append m ::
          RevealEvent.moodUpdate (m.mood.getD "") :: t2 := by
  intro msgs
  induction msgs with
  | nil =>
    intro m hm
    simp at hm
  | cons a rest ih =>
    intro m hm hmood
    rcases List.mem_cons.mp hm with h | h
    · subst h
      exact ⟨[],
        (if rest.isEmpty then []
         else RevealEvent.delay d :: revealTrace rest d),
        by simp [revealTrace, hmood]⟩
    · cases rest with
      | nil => simp at h
      | cons r rs =>
        obtain ⟨t1, t2, ht⟩ := ih m h hmood
        refine ⟨(RevealEvent.append a ::
            (if optTruthy a.mood
             then [RevealEvent.moodUpdate (a.mood.getD "")] else []))
            ++ RevealEvent.delay d :: t1, t2, ?_⟩
        rw [revealTrace_cons_cons, ht]
        simp

/-- C7: the reveal appends the batch to the timeline strictly in input
order; its event trace has exactly `n - 1` delay suspensions for a batch
of `n` messages, never ends in a delay (no suspension after the final
message), and every message with a truthy mood has its mood-resolver
update event immediately after its own append — hence before the next
message's append. -/
theorem reveal_trace_ordering_and_pacing (msgs : List Message) (d : Nat)
    (ex : String → String → Bool) (st : ClientState) :
    (displayResponseMessages ex st msgs d).messages = st.messages ++ msgs
    ∧ appendsOf (revealTrace msgs d) = msgs
    ∧ (revealTrace msgs d).countP isDelay = msgs.length - 1
    ∧ (∀ e, (revealTrace msgs d).getLast? = some e → isDelay e = false)
    ∧ (∀ m, m ∈ msgs → optTruthy m.mood = true →
        ∃ t1 t2, revealTrace msgs d
          = t1 ++ RevealEvent.append m ::
              RevealEvent.moodUpdate (m.mood.getD "") :: t2) :=
  ⟨displayResponseMessages_messages ex msgs st d,
   appendsOf_revealTrace d msgs,
   countP_isDelay_revealTrace d msgs,
   fun e => getLast_revealTrace_not_delay d msgs e,
   fun m => moodUpdate_follows_append d msgs m⟩

/-- Witness for C7: the spec's two-message scenario — "hi there" then
"how are you" with mood "excited" on the second — has exactly one delay
suspension, does not end in a delay, and places the mood update right
after the second append. -/
theorem reveal_trace_ordering_and_pacing_witness :
    (revealTrace
        [{ role := "assistant", content := "hi there" },
         { role := "assistant", content := "how are you",
           mood := some "excited" }] 1000).countP isDelay = 1
    ∧ isDelay (RevealEvent.moodUpdate "excited") = false
    ∧ (∃ t1 t2, revealTrace
        [{ role := "assistant", content := "hi there" },
         { role := "assistant", content := "how are you",
           mood := some "excited" }] 1000
        = t1 ++ RevealEvent.append
            { role := "assistant", content := "how are you",
              mood := some "excited" } ::
            RevealEvent.moodUpdate "excited" :: t2) :=
  have h := reveal_trace_ordering_and_pacing
    [{ role := "assistant", content := "hi there" },
     { role := "assistant", content := "how are you",
       mood := some "excited" }] 1000 (fun _ _ => false) {}
  ⟨h.2.2.1.trans (by decide),
   h.2.2.2.1 (RevealEvent.moodUpdate "excited") (by decide),
   h.2.2.2.2
     { role := "assistant", content := "how are you",
       mood := some "excited" } (by decide) (by decide)⟩
